import Mathlib

/-!
Verification development for a browser-based dictation and file-transcription
tool.  The embedding below translates the programs pure audio codec
(src/utils/audio.ts), its recording state machine and streaming handlers
(src/hooks/useAudioTranscription.ts), and its transcript reconciliation logic
(the App component and NoteEditor) into Lean definitions, and proves the
specified properties about them.

Modelling conventions:
* JS numbers holding audio samples are modelled as rationals (ℚ); the binary
  16-bit conversion used by the code truncates toward zero exactly as the
  ECMAScript ToInt16 conversion does.
* JS strings are modelled as `List Char` (a JS string is a sequence of code
  units); `String.toList` literals appear in concrete statements.
* Byte buffers (DataView / Uint8Array / Int16Array) are modelled as `List ℕ`
  with every entry below 256; multi-byte writes are little-endian, as in the
  source (`setUint32(..., true)` etc.).
* The React hook state (useState values and useRef cells) is collected in one
  record `HookState`; calls to the visualization callback `onAudioData` and to
  the session factory `ai.live.connect` are recorded in observation fields
  (`emittedFrames`, `sessionsCreated`).
-/

/-! ## PCM codec (src/utils/audio.ts) -/

/-- Clamping of a sample to [-1, 1]: `Math.max(-1, Math.min(1, x))`. -/
def clamp (q : ℚ) : ℚ := max (-1) (min 1 q)

/-- Truncation toward zero, the ECMAScript ToInt16 rounding applied by
`DataView.setInt16` and by `Int16Array` element assignment. -/
def truncQ (q : ℚ) : ℤ := if q < 0 then ⌈q⌉ else ⌊q⌋

/-- The signed 16-bit value produced for one sample by both `floatTo16BitPCM`
and `createBlob`: clamp, then scale negatives by 0x8000 and non-negatives by
0x7FFF, then truncate toward zero. -/
def pcm16 (s : ℚ) : ℤ :=
  truncQ (if clamp s < 0 then clamp s * 32768 else clamp s * 32767)

/-- Little-endian byte pair written for a signed 16-bit value
(`setInt16(offset, v, true)`): two's complement, low byte first. -/
def bytes16 (v : ℤ) : List ℕ :=
  [(v % 65536).toNat % 256, (v % 65536).toNat / 256]

/-- Little-endian bytes of `setUint16(offset, n, true)`. -/
def le16 (n : ℕ) : List ℕ := [n % 256, n / 256 % 256]

/-- Little-endian bytes of `setUint32(offset, n, true)`. -/
def le32 (n : ℕ) : List ℕ :=
  [n % 256, n / 256 % 256, n / 65536 % 256, n / 16777216 % 256]

/-- The PCM payload written by `floatTo16BitPCM`: consecutive little-endian
16-bit samples. -/
def floatTo16BitPCM : List ℚ → List ℕ
  | [] => []
  | s :: rest => bytes16 (pcm16 s) ++ floatTo16BitPCM rest

/-- The byte content of the Blob built by `encodeWav(samples, sampleRate)`:
44-byte RIFF/WAVE header followed by the 16-bit PCM payload.  The source
writes, in order: "RIFF", chunk size `36 + samples.length * 2`, "WAVE",
"fmt ", sub-chunk size 16, format tag 1, channel count 1 (`numChannels`),
the sample rate, byte rate `sampleRate * numChannels * (bitsPerSample / 8)`,
block align `numChannels * (bitsPerSample / 8)`, bit depth 16
(`bitsPerSample`), "data", payload length `samples.length * 2`, then the
samples via `floatTo16BitPCM`. -/
def encodeWav (samples : List ℚ) (sampleRate : ℕ) : List ℕ :=
  [82, 73, 70, 70] ++ le32 (36 + samples.length * 2) ++
  [87, 65, 86, 69] ++
  [102, 109, 116, 32] ++ le32 16 ++ le16 1 ++ le16 1 ++
  le32 sampleRate ++ le32 (sampleRate * (1 * (16 / 8))) ++
  le16 (1 * (16 / 8)) ++ le16 16 ++
  [100, 97, 116, 97] ++ le32 (samples.length * 2) ++
  floatTo16BitPCM samples

/-- Signed 16-bit value read back from a little-endian byte pair, as done by
the `Int16Array` view over the payload in `decodeAudioData`. -/
def decode16 (b0 b1 : ℕ) : ℤ :=
  if b0 + 256 * b1 < 32768 then (b0 + 256 * b1 : ℕ)
  else ((b0 + 256 * b1 : ℕ) : ℤ) - 65536

/-- Mono case of `decodeAudioData`: reinterpret the bytes as little-endian
signed 16-bit integers and divide each by 32768.0. -/
def decodeAudioDataMono : List ℕ → List ℚ
  | b0 :: b1 :: rest => ((decode16 b0 b1 : ℚ) / 32768) :: decodeAudioDataMono rest
  | _ => []

/-- Raw signed 16-bit reader over a byte list (the `Int16Array` view itself,
before scaling). -/
def decode16List : List ℕ → List ℤ
  | b0 :: b1 :: rest => decode16 b0 b1 :: decode16List rest
  | _ => []

/-- Result record of `createBlob`: payload bytes plus the MIME tag.  The
source additionally base64-encodes the bytes for transport; the spec treats
that wrapper as opaque, so data is modelled at the byte level. -/
structure GenBlob where
  data : List ℕ
  mimeType : String
deriving DecidableEq

/-- The per-frame streaming encoder `createBlob`: same clamp-and-scale 16-bit
conversion as `floatTo16BitPCM` (`s < 0 ? s * 32768 : s * 32767` into an
`Int16Array`), tagged with the fixed MIME string. -/
def createBlob (data : List ℚ) : GenBlob :=
  { data := floatTo16BitPCM data, mimeType := "audio/pcm;rate=16000" }

/-! ## Text utilities (JS string operations on `List Char`) -/

/-- Concatenation of a list of lists, in order (used for accumulated audio
chunks and for transcript fragments). -/
def concatAll : List (List α) → List α
  | [] => []
  | x :: xs => x ++ concatAll xs

/-- JS `String.prototype.trim`: whitespace stripped from both ends. -/
def trimChars (l : List Char) : List Char :=
  ((l.dropWhile Char.isWhitespace).reverse.dropWhile Char.isWhitespace).reverse

/-- The last dot-separated component of a file name:
`name.split('.').pop()`.  JS split always yields at least one element, and the
popped element is the text after the last dot (the whole name if it has no
dot). -/
def afterLastDot (l : List Char) : List Char :=
  (l.reverse.takeWhile (fun c => c ≠ '.')).reverse

/-- JS `toLowerCase` on the (ASCII) extensions handled here. -/
def lowerChars (l : List Char) : List Char := l.map Char.toLower

/-! ## App state machine (src/hooks/useAudioTranscription.ts) -/

/-- The `AppState` enum imported from types.ts.  Its declaration file is not
part of the sources, but all six variants are fixed by their uses in the hook
and by the spec (Idle, RequestingPermission, Recording, Paused, Stopping,
TranscribingFile). -/
inductive AppState where
  | IDLE
  | GETTING_PERMISSION
  | RECORDING
  | PAUSED
  | STOPPING
  | TRANSCRIBING_FILE
deriving DecidableEq

/-- An AudioContext handle: its sample rate and whether it has been closed
(`audioContextRef.current.state !== 'closed'`). -/
structure CtxState where
  rate : ℕ
  closed : Bool
deriving DecidableEq

/-- The state of the `useAudioTranscription` hook: the six `useState` values
and the ref cells, plus two observation fields: `emittedFrames` records every
call of the `onAudioData` visualization callback, and `sessionsCreated`
counts calls of `ai.live.connect`. -/
structure HookState where
  appState : AppState
  transcript : List Char
  liveTranscript : List Char
  error : Option (List Char)
  recordingTime : ℕ
  audioBlob : Option (List ℕ)
  sessionPromise : Bool
  audioCtx : Option CtxState
  outputAudioCtx : Option CtxState
  scriptProcessor : Bool
  mediaStreamSource : Bool
  mediaStream : Bool
  liveTranscriptRef : List Char
  timerOn : Bool
  recordedChunks : List (List ℚ)
  emittedFrames : List (List ℚ)
  sessionsCreated : ℕ
deriving DecidableEq

/-- Sample rate used when encoding the artifact:
`audioContextRef.current?.sampleRate || 16000` (JS falsiness: a missing
context or a zero rate falls back to 16000). -/
def ctxSampleRate (s : HookState) : ℕ :=
  match s.audioCtx with
  | some c => if c.rate = 0 then 16000 else c.rate
  | none => 16000

/-- Which cleanup steps of `stopRecording` raise: the artifact encode, the
session await/close, the media track release, the two node disconnects, and
the two AudioContext closes. -/
structure StopFails where
  encodeThrows : Bool
  sessionThrows : Bool
  tracksThrow : Bool
  procThrows : Bool
  sourceThrows : Bool
  ctxThrows : Bool
  outCtxThrows : Bool
deriving DecidableEq

/-- One guarded statement inside the try block of `stopRecording`: skipped if
an earlier statement already threw or if its own null-check guard fails;
otherwise it either throws (no state change, exception recorded) or performs
its update. -/
def tryStep (guard : HookState → Bool) (throws : Bool)
    (act : HookState → HookState) (p : HookState × Bool) : HookState × Bool :=
  if p.2 then p
  else if guard p.1 then (if throws then (p.1, true) else (act p.1, false))
  else p

/-- The try block of `stopRecording`, in source order: (1) if chunks were
recorded, concatenate them, encode the WAV artifact, store it and clear the
chunk buffer; (2) await and close the streaming session; (3) stop the media
stream tracks; (4) disconnect the script processor; (5) disconnect the media
stream source; (6) close the input AudioContext if not already closed;
(7) close the output AudioContext likewise.  The boolean of the result says
whether some step threw. -/
def stopTry (f : StopFails) (s : HookState) : HookState × Bool :=
  (s, false)
  |> tryStep (fun st => !st.recordedChunks.isEmpty) f.encodeThrows
      (fun st => { st with
        audioBlob := some (encodeWav (concatAll st.recordedChunks) (ctxSampleRate st)),
        recordedChunks := [] })
  |> tryStep (fun st => st.sessionPromise) f.sessionThrows
      (fun st => { st with sessionPromise := false })
  |> tryStep (fun st => st.mediaStream) f.tracksThrow
      (fun st => { st with mediaStream := false })
  |> tryStep (fun st => st.scriptProcessor) f.procThrows
      (fun st => { st with scriptProcessor := false })
  |> tryStep (fun st => st.mediaStreamSource) f.sourceThrows
      (fun st => { st with mediaStreamSource := false })
  |> tryStep (fun st => match st.audioCtx with | some c => !c.closed | none => false)
      f.ctxThrows (fun st => { st with audioCtx := none })
  |> tryStep (fun st => match st.outputAudioCtx with | some c => !c.closed | none => false)
      f.outCtxThrows (fun st => { st with outputAudioCtx := none })

/-- Error message set by the catch block of `stopRecording`. -/
def stopErrorMsg : List Char := "Failed to stop recording cleanly.".toList

/-- Entry of `stopRecording` after the guard: set `STOPPING`, stop the timer,
emit one empty visualization frame. -/
def stopEnter (s : HookState) : HookState :=
  { s with appState := .STOPPING, timerOn := false,
           emittedFrames := s.emittedFrames ++ [[]] }

/-- Catch block of `stopRecording`: if some try step threw, record the
non-fatal cleanup error. -/
def stopCatch (p : HookState × Bool) : HookState :=
  if p.2 then { p.1 with error := some stopErrorMsg } else p.1

/-- Finally block of `stopRecording`: flush a pending live transcript fragment
(with the blank-line separator) into the settled transcript, then reset the
elapsed time and return to `IDLE`. -/
def stopFinally (s2 : HookState) : HookState :=
  { (if s2.liveTranscriptRef ≠ [] then
      { s2 with
        transcript := s2.transcript ++ s2.liveTranscriptRef ++ "\n\n".toList,
        liveTranscriptRef := [], liveTranscript := [] }
    else s2) with recordingTime := 0, appState := .IDLE }

/-- The `stopRecording` callback.  Guard: no-op when already `IDLE` or
`STOPPING`.  Otherwise: enter `STOPPING`, run the try block (parametrized by
which steps throw), run the catch block if anything threw, and always run the
finally block. -/
def stopRecording (f : StopFails) (s : HookState) : HookState :=
  if s.appState = .IDLE ∨ s.appState = .STOPPING then s
  else stopFinally (stopCatch (stopTry f (stopEnter s)))

/-- Fields of the hook state that no statement of the try block of
`stopRecording` writes, packaged for the preservation argument. -/
def Unvaried (a b : HookState) : Prop :=
  a.appState = b.appState ∧ a.transcript = b.transcript ∧
  a.liveTranscript = b.liveTranscript ∧ a.error = b.error ∧
  a.recordingTime = b.recordingTime ∧ a.liveTranscriptRef = b.liveTranscriptRef ∧
  a.timerOn = b.timerOn ∧ a.emittedFrames = b.emittedFrames ∧
  a.sessionsCreated = b.sessionsCreated

/-- Agreement on the recording artifact field. -/
def SameBlob (a b : HookState) : Prop := a.audioBlob = b.audioBlob

/-- Error message of the start-flow catch block. -/
def micErrorMsg : List Char :=
  "Could not access microphone. Please check permissions and try again.".toList

/-- The synchronous prefix of `startRecording`: no-op unless `IDLE`; otherwise
reset error, transcript, live transcript, elapsed time, artifact and chunk
buffer, and enter `GETTING_PERMISSION`.  (The `liveTranscriptRef` cell is not
touched here by the source.) -/
def startRecordingBegin (s : HookState) : HookState :=
  if s.appState ≠ .IDLE then s
  else
    { s with error := none, transcript := [], liveTranscript := [],
             recordingTime := 0, audioBlob := none, recordedChunks := [],
             appState := .GETTING_PERMISSION }

/-- The asynchronous remainder of `startRecording`.  On success: the media
stream, the 16 kHz input context, the 24 kHz output context and the pending
session are allocated (one `ai.live.connect` call).  On failure the catch
block sets the microphone error and returns to `IDLE`. -/
def startRecordingRest (permissionOk : Bool) (s : HookState) : HookState :=
  if permissionOk then
    { s with mediaStream := true, audioCtx := some ⟨16000, false⟩,
             outputAudioCtx := some ⟨24000, false⟩, sessionPromise := true,
             sessionsCreated := s.sessionsCreated + 1 }
  else { s with error := some micErrorMsg, appState := .IDLE }

/-- The synchronous prefix of `transcribeFile`: no-op unless `IDLE`; otherwise
reset error, transcript, live transcript and artifact, and enter
`TRANSCRIBING_FILE`. -/
def transcribeFileBegin (s : HookState) : HookState :=
  if s.appState ≠ .IDLE then s
  else
    { s with error := none, transcript := [], liveTranscript := [],
             audioBlob := none, appState := .TRANSCRIBING_FILE }

/-! ## Streaming onmessage handler -/

/-- The transcript-relevant content of one `LiveServerMessage`: an optional
incremental input-transcription fragment and the turn-complete flag.  (The
handler additionally decodes inline model audio, which never touches the
transcript state.) -/
structure ServerMessage where
  inputTranscription : Option (List Char)
  turnComplete : Bool

/-- A message carrying one incremental text fragment. -/
def fragMsg (t : List Char) : ServerMessage := ⟨some t, false⟩

/-- A message carrying only the turn-complete signal. -/
def turnMsg : ServerMessage := ⟨none, true⟩

/-- The `onmessage` callback: append an incoming fragment to the live ref and
mirror it into the live state; on turn completion, flush the accumulated
fragment (with the blank-line separator) into the settled transcript when its
trimmed form is non-empty, then reset both live cells. -/
def onMessage (s : HookState) (m : ServerMessage) : HookState :=
  let s1 :=
    match m.inputTranscription with
    | some t =>
      { s with liveTranscriptRef := s.liveTranscriptRef ++ t,
               liveTranscript := s.liveTranscriptRef ++ t }
    | none => s
  if m.turnComplete then
    let s2 :=
      if trimChars s1.liveTranscriptRef ≠ [] then
        { s1 with transcript := s1.transcript ++ s1.liveTranscriptRef ++ "\n\n".toList }
      else s1
    { s2 with liveTranscriptRef := [], liveTranscript := [] }
  else s1

/-! ## File type resolution (transcribeFile) -/

/-- The extension-to-MIME map of `transcribeFile`. -/
def mimeMap (ext : List Char) : Option (List Char) :=
  if ext = "mp3".toList then some "audio/mpeg".toList
  else if ext = "wav".toList then some "audio/wav".toList
  else if ext = "m4a".toList then some "audio/mp4".toList
  else if ext = "mp4".toList then some "audio/mp4".toList
  else if ext = "aac".toList then some "audio/aac".toList
  else if ext = "flac".toList then some "audio/flac".toList
  else if ext = "ogg".toList then some "audio/ogg".toList
  else if ext = "opus".toList then some "audio/ogg".toList
  else if ext = "webm".toList then some "audio/webm".toList
  else if ext = "3gp".toList then some "audio/3gpp".toList
  else if ext = "amr".toList then some "audio/amr".toList
  else if ext = "oga".toList then some "audio/ogg".toList
  else if ext = "mpga".toList then some "audio/mpeg".toList
  else none

/-- The extension of the uploaded file:
`file.name.split('.').pop()?.toLowerCase().trim()`. -/
def fileExtension (name : List Char) : List Char :=
  trimChars (lowerChars (afterLastDot name))

/-- MIME resolution of `transcribeFile`: (1) the extension map wins if it has
an entry (JS also requires the extension to be truthy, i.e. non-empty);
(2) otherwise the browser-reported type, with `audio/x-m4a` corrected to
`audio/mp4`; (3) a final fallback maps an `m4a` extension with an empty type
to `audio/mp4`. -/
def resolveMime (name fileType : List Char) : List Char :=
  let ext := fileExtension name
  let m1 :=
    if ext ≠ [] ∧ (mimeMap ext).isSome then (mimeMap ext).getD []
    else if fileType = "audio/x-m4a".toList then "audio/mp4".toList
    else fileType
  if ext = "m4a".toList ∧ m1 = [] then "audio/mp4".toList else m1

/-- The whitelist of video container types accepted by the validation step. -/
def videoWhitelist : List (List Char) :=
  ["video/mp4".toList, "video/webm".toList, "video/3gpp".toList]

/-- Validation of the resolved type: truthy and `audio/*`, or one of the
whitelisted video containers. -/
def validMime (m : List Char) : Bool :=
  (!m.isEmpty && decide ("audio/".toList <+: m)) || decide (m ∈ videoWhitelist)

/-- The media-type check of `transcribeFile`: the resolved type on success,
the thrown unsupported-type error message otherwise (`${mimeType || 'unknown'}`
names the detected type, or `unknown` when it is empty). -/
def checkFileType (name fileType : List Char) : Except (List Char) (List Char) :=
  let m := resolveMime name fileType
  if validMime m then .ok m
  else .error ("Unsupported file type: ".toList ++
    (if m = [] then "unknown".toList else m) ++
    ". Please upload a supported audio file (e.g., MP3, WAV, M4A).".toList)

/-! ## Transcript reconciliation (App component and NoteEditor) -/

/-- The transcript reconciliation effect of the App component: when the
externally tracked transcript grows past the processed length, append the new
suffix to the note and advance the processed length; when it shrinks (a
reset), replace the note wholesale; otherwise change nothing. -/
def reconcileTranscript (transcript note : List Char) (lastLen : ℕ) :
    List Char × ℕ :=
  if lastLen < transcript.length then (note ++ transcript.drop lastLen, transcript.length)
  else if transcript.length < lastLen then (transcript, transcript.length)
  else (note, lastLen)

/-- The debounced commit of `handleEditorChange`: if a live suffix is present
and the edited text still ends with it, commit the text with that suffix
removed (`value.slice(0, -liveTranscript.length)`); otherwise commit the whole
text. -/
def commitEdit (value live : List Char) : List Char :=
  if live ≠ [] ∧ live <:+ value then value.take (value.length - live.length)
  else value

/-! ## Byte readers and concrete fixtures -/

/-- Helper of `readU16`: skip `off` bytes, then read two. -/
def readLE16Aux : ℕ → List ℕ → ℕ
  | 0, b0 :: b1 :: _ => b0 + 256 * b1
  | 0, _ => 0
  | _ + 1, [] => 0
  | n + 1, _ :: rest => readLE16Aux n rest

/-- Unsigned 16-bit little-endian read at a byte offset (how a WAV consumer
reads a header field). -/
def readU16 (l : List ℕ) (off : ℕ) : ℕ := readLE16Aux off l

/-- Unsigned 32-bit little-endian read at a byte offset. -/
def readU32 (l : List ℕ) (off : ℕ) : ℕ :=
  readU16 l off + 65536 * readU16 l (off + 2)

/-- A hook state at rest: `IDLE`, nothing allocated, all buffers empty. -/
def stIdle : HookState :=
  { appState := .IDLE, transcript := [], liveTranscript := [], error := none,
    recordingTime := 0, audioBlob := none, sessionPromise := false,
    audioCtx := none, outputAudioCtx := none, scriptProcessor := false,
    mediaStreamSource := false, mediaStream := false, liveTranscriptRef := [],
    timerOn := false, recordedChunks := [], emittedFrames := [],
    sessionsCreated := 0 }

/-- A hook state in the middle of a recording, with a pending live transcript
fragment and no accumulated chunks. -/
def stRecording : HookState :=
  { appState := .RECORDING, transcript := "old".toList, liveTranscript := "hi".toList,
    error := none, recordingTime := 7, audioBlob := none, sessionPromise := true,
    audioCtx := some ⟨16000, false⟩, outputAudioCtx := some ⟨24000, false⟩,
    scriptProcessor := true, mediaStreamSource := true, mediaStream := true,
    liveTranscriptRef := "hi".toList, timerOn := true, recordedChunks := [],
    emittedFrames := [], sessionsCreated := 1 }

/-- A failure pattern for the stop cleanup: the session close throws. -/
def fSession : StopFails :=
  { encodeThrows := false, sessionThrows := true, tracksThrow := false,
    procThrows := false, sourceThrows := false, ctxThrows := false,
    outCtxThrows := false }

/-- The all-clear failure pattern: no cleanup step throws. -/
def fNone : StopFails :=
  { encodeThrows := false, sessionThrows := false, tracksThrow := false,
    procThrows := false, sourceThrows := false, ctxThrows := false,
    outCtxThrows := false }

/-! ## Codec lemmas -/

theorem clamp_bounds (q : ℚ) : -1 ≤ clamp q ∧ clamp q ≤ 1 := by
  constructor
  · exact le_max_left _ _
  · exact max_le (by norm_num) (min_le_left _ _)

theorem pcm16_bounds (s : ℚ) : -32768 ≤ pcm16 s ∧ pcm16 s ≤ 32767 := by
  obtain ⟨hlo, hhi⟩ := clamp_bounds s
  unfold pcm16 truncQ
  by_cases hneg : clamp s < 0
  · rw [if_pos hneg]
    have harg : clamp s * 32768 < 0 := mul_neg_of_neg_of_pos hneg (by norm_num)
    rw [if_pos harg]
    constructor
    · have : ((-32768 : ℤ) : ℚ) ≤ clamp s * 32768 := by push_cast; nlinarith
      calc (-32768 : ℤ) = ⌈((-32768 : ℤ) : ℚ)⌉ := (Int.ceil_intCast _).symm
        _ ≤ ⌈clamp s * 32768⌉ := Int.ceil_le_ceil this
    · have h0 : ⌈clamp s * 32768⌉ ≤ 0 := Int.ceil_le.mpr (by push_cast; linarith)
      omega
  · rw [if_neg hneg]
    push_neg at hneg
    have harg : ¬ clamp s * 32767 < 0 := by push_neg; positivity
    rw [if_neg harg]
    push_neg at harg
    constructor
    · have h0 : (0 : ℤ) ≤ ⌊clamp s * 32767⌋ := Int.floor_nonneg.mpr harg
      omega
    · have : clamp s * 32767 ≤ ((32767 : ℤ) : ℚ) := by push_cast; nlinarith
      calc ⌊clamp s * 32767⌋ ≤ ⌊((32767 : ℤ) : ℚ)⌋ := Int.floor_le_floor this
        _ = 32767 := Int.floor_intCast _

theorem decode16_bytes16 (v : ℤ) (h1 : -32768 ≤ v) (h2 : v ≤ 32767) :
    decode16 ((v % 65536).toNat % 256) ((v % 65536).toNat / 256) = v := by
  unfold decode16
  split_ifs with h <;> omega

theorem floatTo16BitPCM_length (S : List ℚ) :
    (floatTo16BitPCM S).length = 2 * S.length := by
  induction S with
  | nil => rfl
  | cons s rest ih => simp [floatTo16BitPCM, bytes16, ih]; omega

theorem decodeAudioDataMono_floatTo16BitPCM (S : List ℚ) :
    decodeAudioDataMono (floatTo16BitPCM S) =
      S.map (fun s => ((pcm16 s : ℚ) / 32768)) := by
  induction S with
  | nil => rfl
  | cons s rest ih =>
    obtain ⟨hlo, hhi⟩ := pcm16_bounds s
    show decodeAudioDataMono (bytes16 (pcm16 s) ++ floatTo16BitPCM rest) = _
    rw [bytes16]
    show ((decode16 _ _ : ℚ) / 32768) :: decodeAudioDataMono (floatTo16BitPCM rest) = _
    rw [decode16_bytes16 _ hlo hhi, ih, List.map]

theorem decode16List_floatTo16BitPCM (S : List ℚ) :
    decode16List (floatTo16BitPCM S) = S.map pcm16 := by
  induction S with
  | nil => rfl
  | cons s rest ih =>
    obtain ⟨hlo, hhi⟩ := pcm16_bounds s
    show decode16List (bytes16 (pcm16 s) ++ floatTo16BitPCM rest) = _
    rw [bytes16]
    show decode16 _ _ :: decode16List (floatTo16BitPCM rest) = _
    rw [decode16_bytes16 _ hlo hhi, ih, List.map]

theorem floatTo16BitPCM_bytes_lt (S : List ℚ) :
    List.Forall (fun b => b < 256) (floatTo16BitPCM S) := by
  induction S with
  | nil => trivial
  | cons s rest ih =>
    show List.Forall (fun b => b < 256)
      (((pcm16 s % 65536).toNat % 256) :: ((pcm16 s % 65536).toNat / 256) ::
        floatTo16BitPCM rest)
    rw [List.forall_cons, List.forall_cons]
    exact ⟨by omega, by omega, ih⟩

/-! ## C3: container roundtrip quantization error -/

/-- C3 counterexample: for the single-sample sequence [4/5], decoding the PCM
payload of the encoded container yields 26213/32768, whose distance to the
clamped original sample 4/5 is 7/163840 > 1/32768, so the claimed bound of
1/32768 fails. -/
theorem wav_roundtrip_error_exceeds :
    decodeAudioDataMono ((encodeWav [(4 : ℚ)/5] 16000).drop 44) =
      [(26213 : ℚ)/32768] ∧
    ¬ |(26213 : ℚ)/32768 - clamp ((4 : ℚ)/5)| ≤ 1/32768 := by
  have hc : clamp ((4 : ℚ)/5) = 4/5 := by
    unfold clamp
    rw [min_eq_right (by norm_num), max_eq_right (by norm_num)]
  have hp : pcm16 ((4 : ℚ)/5) = 26213 := by
    unfold pcm16 truncQ
    rw [hc, if_neg (by norm_num), if_neg (by norm_num),
      show (4 : ℚ)/5 * 32767 = 131068/5 by norm_num, Int.floor_eq_iff]
    constructor <;> norm_num
  constructor
  · have h44 : (encodeWav [(4 : ℚ)/5] 16000).drop 44 =
        floatTo16BitPCM [(4 : ℚ)/5] := rfl
    rw [h44]
    show decodeAudioDataMono (bytes16 (pcm16 ((4 : ℚ)/5)) ++ []) = _
    rw [hp, show bytes16 (26213 : ℤ) = [101, 102] from by decide]
    show ((decode16 101 102 : ℚ) / 32768) :: [] = _
    rw [show decode16 101 102 = 26213 from by decide]
    norm_num
  · rw [hc, show (26213 : ℚ)/32768 - 4/5 = -(7/163840) by norm_num, abs_neg,
      abs_of_nonneg (by norm_num)]
    norm_num

/-- C3 (amended): decoding the PCM payload of `encodeWav S R` as 16-bit mono
recovers, at every index, the clamped original sample within a quantization
error strictly below 2/32768 (the claimed bound 1/32768 is exceeded for some
non-negative samples because the encoder scales them by 32767 while the
decoder divides by 32768). -/
theorem wav_roundtrip_quantization :
    (∀ (S : List ℚ) (R : ℕ),
      decodeAudioDataMono ((encodeWav S R).drop 44) =
        S.map (fun s => ((pcm16 s : ℚ) / 32768))) ∧
    (∀ s : ℚ, |(pcm16 s : ℚ) / 32768 - clamp s| < 2/32768) := by
  constructor
  · intro S R
    have h : (encodeWav S R).drop 44 = floatTo16BitPCM S := rfl
    rw [h, decodeAudioDataMono_floatTo16BitPCM]
  · intro s
    obtain ⟨hlo, hhi⟩ := clamp_bounds s
    unfold pcm16 truncQ
    by_cases hneg : clamp s < 0
    · rw [if_pos hneg]
      have harg : clamp s * 32768 < 0 := mul_neg_of_neg_of_pos hneg (by norm_num)
      rw [if_pos harg]
      have h1 : clamp s * 32768 ≤ (⌈clamp s * 32768⌉ : ℚ) := Int.le_ceil _
      have h2 : (⌈clamp s * 32768⌉ : ℚ) < clamp s * 32768 + 1 :=
        Int.ceil_lt_add_one _
      rw [abs_lt]
      constructor <;> linarith
    · rw [if_neg hneg]
      push_neg at hneg
      have harg : ¬ clamp s * 32767 < 0 := by push_neg; positivity
      rw [if_neg harg]
      have h1 : (⌊clamp s * 32767⌋ : ℚ) ≤ clamp s * 32767 := Int.floor_le _
      have h2 : clamp s * 32767 - 1 < (⌊clamp s * 32767⌋ : ℚ) :=
        Int.sub_one_lt_floor _
      rw [abs_lt]
      constructor <;> linarith

/-! ## C4: WAV container layout -/

/-- Shape of the encoder output: the 44 header bytes written at offsets
0..43, as one explicit list. -/
theorem encodeWav_shape (S : List ℚ) (R : ℕ) :
    encodeWav S R =
      82 :: 73 :: 70 :: 70 ::
      ((36 + S.length * 2) % 256) :: ((36 + S.length * 2) / 256 % 256) ::
      ((36 + S.length * 2) / 65536 % 256) :: ((36 + S.length * 2) / 16777216 % 256) ::
      87 :: 65 :: 86 :: 69 ::
      102 :: 109 :: 116 :: 32 ::
      (16 % 256) :: (16 / 256 % 256) :: (16 / 65536 % 256) :: (16 / 16777216 % 256) ::
      (1 % 256) :: (1 / 256 % 256) ::
      (1 % 256) :: (1 / 256 % 256) ::
      (R % 256) :: (R / 256 % 256) :: (R / 65536 % 256) :: (R / 16777216 % 256) ::
      (R * (1 * (16 / 8)) % 256) :: (R * (1 * (16 / 8)) / 256 % 256) ::
      (R * (1 * (16 / 8)) / 65536 % 256) :: (R * (1 * (16 / 8)) / 16777216 % 256) ::
      (1 * (16 / 8) % 256) :: (1 * (16 / 8) / 256 % 256) ::
      (16 % 256) :: (16 / 256 % 256) ::
      100 :: 97 :: 116 :: 97 ::
      (S.length * 2 % 256) :: (S.length * 2 / 256 % 256) ::
      (S.length * 2 / 65536 % 256) :: (S.length * 2 / 16777216 % 256) ::
      floatTo16BitPCM S := rfl

/-- C4: `encodeWav S R` (a pure function, hence deterministic) produces
exactly 44 + 2*len(S) bytes with the RIFF/WAVE header fields at their fixed
little-endian byte offsets, followed by the 16-bit PCM payload. -/
theorem encodeWav_layout (S : List ℚ) (R : ℕ)
    (hLen : 36 + S.length * 2 < 4294967296) (hR : R * 2 < 4294967296) :
    (encodeWav S R).length = 44 + 2 * S.length ∧
    (encodeWav S R).take 4 = [82, 73, 70, 70] ∧
    readU32 (encodeWav S R) 4 = 36 + 2 * S.length ∧
    ((encodeWav S R).drop 8).take 4 = [87, 65, 86, 69] ∧
    ((encodeWav S R).drop 12).take 4 = [102, 109, 116, 32] ∧
    readU32 (encodeWav S R) 16 = 16 ∧
    readU16 (encodeWav S R) 20 = 1 ∧
    readU16 (encodeWav S R) 22 = 1 ∧
    readU32 (encodeWav S R) 24 = R ∧
    readU32 (encodeWav S R) 28 = R * 2 ∧
    readU16 (encodeWav S R) 32 = 2 ∧
    readU16 (encodeWav S R) 34 = 16 ∧
    ((encodeWav S R).drop 36).take 4 = [100, 97, 116, 97] ∧
    readU32 (encodeWav S R) 40 = 2 * S.length ∧
    (encodeWav S R).drop 44 = floatTo16BitPCM S := by
  refine ⟨?_, ?_, ?_, ?_, ?_, ?_, ?_, ?_, ?_, ?_, ?_, ?_, ?_, ?_, ?_⟩
  · have h2 := floatTo16BitPCM_length S
    rw [encodeWav_shape]
    simp only [List.length_cons, floatTo16BitPCM_length]
    omega
  · rw [encodeWav_shape]
    rfl
  · have base : readU32 (encodeWav S R) 4 =
        (36 + S.length * 2) % 256 + 256 * ((36 + S.length * 2) / 256 % 256) +
          65536 * ((36 + S.length * 2) / 65536 % 256 +
            256 * ((36 + S.length * 2) / 16777216 % 256)) := by
      rw [encodeWav_shape]; rfl
    omega
  · rw [encodeWav_shape]
    rfl
  · rw [encodeWav_shape]
    rfl
  · rw [encodeWav_shape]
    rfl
  · rw [encodeWav_shape]
    rfl
  · rw [encodeWav_shape]
    rfl
  · have base : readU32 (encodeWav S R) 24 =
        R % 256 + 256 * (R / 256 % 256) +
          65536 * (R / 65536 % 256 + 256 * (R / 16777216 % 256)) := by
      rw [encodeWav_shape]; rfl
    omega
  · have base : readU32 (encodeWav S R) 28 =
        R * (1 * (16 / 8)) % 256 + 256 * (R * (1 * (16 / 8)) / 256 % 256) +
          65536 * (R * (1 * (16 / 8)) / 65536 % 256 +
            256 * (R * (1 * (16 / 8)) / 16777216 % 256)) := by
      rw [encodeWav_shape]; rfl
    omega
  · rw [encodeWav_shape]
    rfl
  · rw [encodeWav_shape]
    rfl
  · rw [encodeWav_shape]
    rfl
  · have base : readU32 (encodeWav S R) 40 =
        S.length * 2 % 256 + 256 * (S.length * 2 / 256 % 256) +
          65536 * (S.length * 2 / 65536 % 256 +
            256 * (S.length * 2 / 16777216 % 256)) := by
      rw [encodeWav_shape]; rfl
    omega
  · rw [encodeWav_shape]
    rfl

/-- C4 witness: the layout theorem instantiated at the empty sample list and
rate 8000 (both size side conditions hold there). -/
theorem encodeWav_layout_witness :
    (36 + ([] : List ℚ).length * 2 < 4294967296 ∧ 8000 * 2 < 4294967296) ∧
    ((encodeWav ([] : List ℚ) 8000).length = 44 + 2 * ([] : List ℚ).length ∧
      (encodeWav ([] : List ℚ) 8000).take 4 = [82, 73, 70, 70] ∧
      readU32 (encodeWav ([] : List ℚ) 8000) 4 = 36 + 2 * ([] : List ℚ).length ∧
      ((encodeWav ([] : List ℚ) 8000).drop 8).take 4 = [87, 65, 86, 69] ∧
      ((encodeWav ([] : List ℚ) 8000).drop 12).take 4 = [102, 109, 116, 32] ∧
      readU32 (encodeWav ([] : List ℚ) 8000) 16 = 16 ∧
      readU16 (encodeWav ([] : List ℚ) 8000) 20 = 1 ∧
      readU16 (encodeWav ([] : List ℚ) 8000) 22 = 1 ∧
      readU32 (encodeWav ([] : List ℚ) 8000) 24 = 8000 ∧
      readU32 (encodeWav ([] : List ℚ) 8000) 28 = 8000 * 2 ∧
      readU16 (encodeWav ([] : List ℚ) 8000) 32 = 2 ∧
      readU16 (encodeWav ([] : List ℚ) 8000) 34 = 16 ∧
      ((encodeWav ([] : List ℚ) 8000).drop 36).take 4 = [100, 97, 116, 97] ∧
      readU32 (encodeWav ([] : List ℚ) 8000) 40 = 2 * ([] : List ℚ).length ∧
      (encodeWav ([] : List ℚ) 8000).drop 44 = floatTo16BitPCM ([] : List ℚ)) :=
  ⟨⟨by decide, by decide⟩, encodeWav_layout [] 8000 (by decide) (by decide)⟩

/-! ## C9: the streaming frame encoder -/

/-- C9: `createBlob` always returns the fixed MIME tag, writes exactly two
bytes (all below 256) per input sample with no partial writes, and reading
the bytes back as little-endian signed 16-bit integers yields exactly the
clamped and asymmetrically scaled sample values, which always fit in the
signed 16-bit range (so the encoder is total on every input). -/
theorem createBlob_props :
    (∀ S : List ℚ, (createBlob S).mimeType = "audio/pcm;rate=16000") ∧
    (∀ S : List ℚ, (createBlob S).data.length = 2 * S.length) ∧
    (∀ S : List ℚ, decode16List (createBlob S).data = S.map pcm16) ∧
    (∀ S : List ℚ, List.Forall (fun b => b < 256) (createBlob S).data) ∧
    (∀ s : ℚ, -32768 ≤ pcm16 s ∧ pcm16 s ≤ 32767) :=
  ⟨fun _ => rfl,
   fun S => floatTo16BitPCM_length S,
   fun S => decode16List_floatTo16BitPCM S,
   fun S => floatTo16BitPCM_bytes_lt S,
   pcm16_bounds⟩

/-! ## C5: transcript reconciliation effect -/

/-- C5: the reconciliation effect only ever appends to the note while the
tracked transcript does not shrink (the new note is the old note plus the
transcript suffix past the tracked length, which is then updated), and
replaces the note wholesale, resetting the tracked length, when the
transcript length decreases. -/
theorem reconcile_append_only (t note : List Char) (l : ℕ) :
    (l ≤ t.length → reconcileTranscript t note l = (note ++ t.drop l, t.length)) ∧
    (t.length < l → reconcileTranscript t note l = (t, t.length)) := by
  constructor
  · intro h
    rcases Nat.lt_or_ge l t.length with h1 | h1
    · unfold reconcileTranscript
      rw [if_pos h1]
    · have h2 : l = t.length := le_antisymm h h1
      subst h2
      simp [reconcileTranscript, List.drop_length]
  · intro h
    unfold reconcileTranscript
    rw [if_neg (by omega), if_pos h]

/-- C5 witness: a growth step (tracked length 2 against transcript "abcd")
appends the suffix "cd"; a shrink step (tracked length 3 against transcript
"a") replaces the note wholesale. -/
theorem reconcile_append_only_witness :
    (2 ≤ "abcd".toList.length ∧
      reconcileTranscript "abcd".toList "ab".toList 2 =
        ("ab".toList ++ "abcd".toList.drop 2, "abcd".toList.length)) ∧
    ("a".toList.length < 3 ∧
      reconcileTranscript "a".toList "xyz".toList 3 =
        ("a".toList, "a".toList.length)) :=
  ⟨⟨by decide, (reconcile_append_only "abcd".toList "ab".toList 2).1 (by decide)⟩,
   ⟨by decide, (reconcile_append_only "a".toList "xyz".toList 3).2 (by decide)⟩⟩

/-! ## C6: editor commit against the live suffix -/

/-- C6: while a live suffix is present, committing an edit whose text still
ends with exactly that suffix commits the text with the suffix removed (so an
edit of settled + live that keeps the live part intact commits the settled
part unchanged); committing a text that no longer ends with the live suffix
commits the whole text, discarding the suffix — in particular the spec
scenario where "Hello there" does not end with live suffix "world". -/
theorem commitEdit_props :
    (∀ settled live : List Char, live ≠ [] →
      commitEdit (settled ++ live) live = settled) ∧
    (∀ value live : List Char, ¬ live <:+ value → commitEdit value live = value) ∧
    commitEdit "Hello there".toList "world".toList = "Hello there".toList := by
  refine ⟨?_, ?_, by decide⟩
  · intro settled live h
    unfold commitEdit
    rw [if_pos ⟨h, List.suffix_append settled live⟩, List.length_append,
      Nat.add_sub_cancel, List.take_left]
  · intro value live h
    unfold commitEdit
    rw [if_neg (by tauto)]

/-- C6 witness: an unchanged edit of "Hello " + "world" commits "Hello "
unchanged, and the edit "Hello there" (which does not end with "world")
commits wholesale. -/
theorem commitEdit_props_witness :
    ("world".toList ≠ [] ∧
      commitEdit ("Hello ".toList ++ "world".toList) "world".toList =
        "Hello ".toList) ∧
    (¬ "world".toList <:+ "Hello there".toList ∧
      commitEdit "Hello there".toList "world".toList = "Hello there".toList) :=
  ⟨⟨by decide, commitEdit_props.1 "Hello ".toList "world".toList (by decide)⟩,
   ⟨by decide, commitEdit_props.2.1 "Hello there".toList "world".toList (by decide)⟩⟩

/-! ## C7: turn boundary flush -/

theorem foldl_fragMsgs (frags : List (List Char)) : ∀ s : HookState,
    ((frags.map fragMsg).foldl onMessage s).transcript = s.transcript ∧
    ((frags.map fragMsg).foldl onMessage s).liveTranscriptRef =
      s.liveTranscriptRef ++ concatAll frags := by
  induction frags with
  | nil => intro s; exact ⟨rfl, by simp [concatAll]⟩
  | cons t ts ih =>
    intro s
    rw [List.map_cons, List.foldl_cons]
    obtain ⟨h1, h2⟩ := ih (onMessage s (fragMsg t))
    refine ⟨by rw [h1]; rfl, ?_⟩
    rw [h2, show (onMessage s (fragMsg t)).liveTranscriptRef =
      s.liveTranscriptRef ++ t from rfl, List.append_assoc]
    rfl

theorem onMessage_turn_pos (r : HookState)
    (hc : trimChars r.liveTranscriptRef ≠ []) :
    onMessage r turnMsg =
      { r with transcript := r.transcript ++ r.liveTranscriptRef ++ "\n\n".toList,
               liveTranscriptRef := [], liveTranscript := [] } := by
  show ({ (if trimChars r.liveTranscriptRef ≠ [] then
      { r with transcript := r.transcript ++ r.liveTranscriptRef ++ "\n\n".toList }
    else r) with liveTranscriptRef := [], liveTranscript := [] } : HookState) = _
  rw [if_pos hc]

theorem onMessage_turn_neg (r : HookState)
    (hc : ¬ trimChars r.liveTranscriptRef ≠ []) :
    onMessage r turnMsg =
      { r with liveTranscriptRef := [], liveTranscript := [] } := by
  show ({ (if trimChars r.liveTranscriptRef ≠ [] then
      { r with transcript := r.transcript ++ r.liveTranscriptRef ++ "\n\n".toList }
    else r) with liveTranscriptRef := [], liveTranscript := [] } : HookState) = _
  rw [if_neg hc]

/-- C7 counterexample: one fragment "hi" followed by the turn boundary, with
no pending text before the turn, settles the text "hi" plus a blank-line
separator — not the bare concatenation "hi" of the delivered fragments — so
the claimed equality with the exact concatenation fails. -/
theorem turn_flush_counterexample :
    ¬ ((([fragMsg "hi".toList] ++ [turnMsg]).foldl onMessage stIdle).transcript =
        stIdle.transcript ++ concatAll ["hi".toList]) := by decide

/-- C7 (amended): with no pending text at the start of the turn and no user
edit, delivering any fragment sequence and then the turn boundary settles
exactly the in-order concatenation of the fragments — with no duplication —
followed by one blank-line separator, except that a whitespace-only
concatenation is discarded; the live buffer and live state are reset to empty
in every case. -/
theorem turn_flush (s : HookState) (frags : List (List Char))
    (h : s.liveTranscriptRef = []) :
    ((frags.map fragMsg ++ [turnMsg]).foldl onMessage s).transcript =
      (if trimChars (concatAll frags) ≠ [] then
        s.transcript ++ concatAll frags ++ "\n\n".toList
      else s.transcript) ∧
    ((frags.map fragMsg ++ [turnMsg]).foldl onMessage s).liveTranscriptRef = [] ∧
    ((frags.map fragMsg ++ [turnMsg]).foldl onMessage s).liveTranscript = [] := by
  rw [List.foldl_append, List.foldl_cons, List.foldl_nil]
  obtain ⟨h1, h2⟩ := foldl_fragMsgs frags s
  rw [h, List.nil_append] at h2
  by_cases hc : trimChars (concatAll frags) ≠ []
  · have hc2 : trimChars ((frags.map fragMsg).foldl onMessage s).liveTranscriptRef ≠ [] := by
      rw [h2]; exact hc
    rw [onMessage_turn_pos _ hc2]
    refine ⟨?_, rfl, rfl⟩
    rw [if_pos hc]
    show ((frags.map fragMsg).foldl onMessage s).transcript ++
        ((frags.map fragMsg).foldl onMessage s).liveTranscriptRef ++
        "\n\n".toList = _
    rw [h1, h2]
  · have hc2 : ¬ trimChars ((frags.map fragMsg).foldl onMessage s).liveTranscriptRef ≠ [] := by
      rw [h2]; exact hc
    rw [onMessage_turn_neg _ hc2]
    refine ⟨?_, rfl, rfl⟩
    rw [if_neg hc]
    show ((frags.map fragMsg).foldl onMessage s).transcript = s.transcript
    exact h1

/-- C7 witness: the amended flush theorem applied to the idle state (whose
live buffer is empty) and the single fragment "hi". -/
theorem turn_flush_witness :
    stIdle.liveTranscriptRef = [] ∧
    (((["hi".toList].map fragMsg ++ [turnMsg]).foldl onMessage stIdle).transcript =
      (if trimChars (concatAll ["hi".toList]) ≠ [] then
        stIdle.transcript ++ concatAll ["hi".toList] ++ "\n\n".toList
      else stIdle.transcript) ∧
    ((["hi".toList].map fragMsg ++ [turnMsg]).foldl onMessage stIdle).liveTranscriptRef = [] ∧
    ((["hi".toList].map fragMsg ++ [turnMsg]).foldl onMessage stIdle).liveTranscript = []) :=
  ⟨rfl, turn_flush stIdle ["hi".toList] rfl⟩

/-! ## Stop cleanup scaffolding -/

theorem unvaried_refl (a : HookState) : Unvaried a a :=
  ⟨rfl, rfl, rfl, rfl, rfl, rfl, rfl, rfl, rfl⟩

theorem unvaried_trans {a b c : HookState} (h1 : Unvaried a b)
    (h2 : Unvaried b c) : Unvaried a c := by
  obtain ⟨x1, x2, x3, x4, x5, x6, x7, x8, x9⟩ := h1
  obtain ⟨y1, y2, y3, y4, y5, y6, y7, y8, y9⟩ := h2
  exact ⟨x1.trans y1, x2.trans y2, x3.trans y3, x4.trans y4, x5.trans y5,
    x6.trans y6, x7.trans y7, x8.trans y8, x9.trans y9⟩

theorem tryStep_unvaried {g : HookState → Bool} {th : Bool}
    {act : HookState → HookState} (hact : ∀ st, Unvaried (act st) st)
    (p : HookState × Bool) : Unvaried ((tryStep g th act p).1) p.1 := by
  unfold tryStep
  split_ifs
  · exact unvaried_refl _
  · exact unvaried_refl _
  · exact hact p.1
  · exact unvaried_refl _

theorem stopTry_unvaried (f : StopFails) (s : HookState) :
    Unvaried ((stopTry f s).1) s := by
  unfold stopTry
  refine unvaried_trans (tryStep_unvaried ?_ _)
    (unvaried_trans (tryStep_unvaried ?_ _)
      (unvaried_trans (tryStep_unvaried ?_ _)
        (unvaried_trans (tryStep_unvaried ?_ _)
          (unvaried_trans (tryStep_unvaried ?_ _)
            (unvaried_trans (tryStep_unvaried ?_ _)
              (tryStep_unvaried ?_ _))))))
  all_goals exact fun st => ⟨rfl, rfl, rfl, rfl, rfl, rfl, rfl, rfl, rfl⟩

theorem stopCatch_fields (p : HookState × Bool) :
    ((stopCatch p).error = p.1.error ∨ (stopCatch p).error = some stopErrorMsg) ∧
    (stopCatch p).transcript = p.1.transcript ∧
    (stopCatch p).liveTranscriptRef = p.1.liveTranscriptRef ∧
    (stopCatch p).liveTranscript = p.1.liveTranscript := by
  unfold stopCatch
  split_ifs
  · exact ⟨Or.inr rfl, rfl, rfl, rfl⟩
  · exact ⟨Or.inl rfl, rfl, rfl, rfl⟩

theorem stopFinally_fields (x : HookState) :
    (stopFinally x).appState = .IDLE ∧ (stopFinally x).recordingTime = 0 ∧
    (stopFinally x).error = x.error ∧
    (x.liveTranscriptRef ≠ [] →
      (stopFinally x).transcript =
        x.transcript ++ x.liveTranscriptRef ++ "\n\n".toList ∧
      (stopFinally x).liveTranscriptRef = [] ∧
      (stopFinally x).liveTranscript = []) := by
  unfold stopFinally
  by_cases hc : x.liveTranscriptRef ≠ []
  · rw [if_pos hc]
    exact ⟨rfl, rfl, rfl, fun _ => ⟨rfl, rfl, rfl⟩⟩
  · rw [if_neg hc]
    exact ⟨rfl, rfl, rfl, fun hx => absurd hx hc⟩

/-! ## C1: stopRecording always reaches IDLE -/

/-- C1: from any state other than `IDLE` or `STOPPING`, whatever subset of
cleanup steps throws, `stopRecording` ends in `IDLE` with the elapsed time
reset to zero; its error cell is either untouched or carries exactly the
non-fatal cleanup message; and a non-empty pending live fragment is appended
(with the blank-line separator) to the settled transcript while both live
cells are cleared. -/
theorem stopRecording_cleanup (f : StopFails) (s : HookState)
    (h1 : s.appState ≠ .IDLE) (h2 : s.appState ≠ .STOPPING) :
    (stopRecording f s).appState = .IDLE ∧
    (stopRecording f s).recordingTime = 0 ∧
    ((stopRecording f s).error = s.error ∨
      (stopRecording f s).error = some stopErrorMsg) ∧
    (s.liveTranscriptRef ≠ [] →
      (stopRecording f s).transcript =
        s.transcript ++ s.liveTranscriptRef ++ "\n\n".toList ∧
      (stopRecording f s).liveTranscriptRef = [] ∧
      (stopRecording f s).liveTranscript = []) := by
  have hguard : ¬ (s.appState = .IDLE ∨ s.appState = .STOPPING) := by tauto
  have hrw : stopRecording f s =
      stopFinally (stopCatch (stopTry f (stopEnter s))) := by
    unfold stopRecording
    rw [if_neg hguard]
  obtain ⟨u1, u2, u3, u4, u5, u6, u7, u8, u9⟩ := stopTry_unvaried f (stopEnter s)
  obtain ⟨c1, c2, c3, c4⟩ := stopCatch_fields (stopTry f (stopEnter s))
  obtain ⟨f1, f2, f3, f4⟩ := stopFinally_fields (stopCatch (stopTry f (stopEnter s)))
  rw [hrw]
  refine ⟨f1, f2, ?_, ?_⟩
  · rw [f3]
    rcases c1 with hc | hc
    · left
      rw [hc, u4]
      rfl
    · right
      exact hc
  · intro hlive
    have hlive2 : (stopCatch (stopTry f (stopEnter s))).liveTranscriptRef ≠ [] := by
      rw [c3, u6]
      exact hlive
    obtain ⟨t1, t2, t3⟩ := f4 hlive2
    refine ⟨?_, t2, t3⟩
    rw [t1, c2, u2, c3, u6]
    rfl

/-- C1 witness: the cleanup theorem applied to a recording state with pending
live fragment "hi" under a failure pattern where the session close throws. -/
theorem stopRecording_cleanup_witness :
    (stRecording.appState ≠ .IDLE ∧ stRecording.appState ≠ .STOPPING ∧
      stRecording.liveTranscriptRef ≠ []) ∧
    (stopRecording fSession stRecording).appState = .IDLE ∧
    (stopRecording fSession stRecording).recordingTime = 0 ∧
    ((stopRecording fSession stRecording).error = stRecording.error ∨
      (stopRecording fSession stRecording).error = some stopErrorMsg) ∧
    ((stopRecording fSession stRecording).transcript =
      stRecording.transcript ++ stRecording.liveTranscriptRef ++ "\n\n".toList ∧
    (stopRecording fSession stRecording).liveTranscriptRef = [] ∧
    (stopRecording fSession stRecording).liveTranscript = []) := by
  have h := stopRecording_cleanup fSession stRecording (by decide) (by decide)
  exact ⟨⟨by decide, by decide, by decide⟩, h.1, h.2.1, h.2.2.1,
    h.2.2.2 (by decide)⟩

/-! ## C10: stopRecording no-op guard and absent artifact -/

theorem sameBlob_trans {a b c : HookState} (h1 : SameBlob a b)
    (h2 : SameBlob b c) : SameBlob a c := h1.trans h2

theorem tryStep_sameBlob {g : HookState → Bool} {th : Bool}
    {act : HookState → HookState} (hact : ∀ st, SameBlob (act st) st)
    (p : HookState × Bool) : SameBlob ((tryStep g th act p).1) p.1 := by
  unfold tryStep
  split_ifs
  · exact rfl
  · exact rfl
  · exact hact p.1
  · exact rfl

theorem stopTry_sameBlob_of_no_chunks (f : StopFails) (s : HookState)
    (h : s.recordedChunks = []) : SameBlob ((stopTry f s).1) s := by
  unfold stopTry
  rw [show tryStep (fun st => !st.recordedChunks.isEmpty) f.encodeThrows
      (fun st => { st with
        audioBlob := some (encodeWav (concatAll st.recordedChunks) (ctxSampleRate st)),
        recordedChunks := [] }) ((s, false)) = (s, false) from by
    unfold tryStep
    simp [h]]
  refine sameBlob_trans (tryStep_sameBlob ?_ _)
    (sameBlob_trans (tryStep_sameBlob ?_ _)
      (sameBlob_trans (tryStep_sameBlob ?_ _)
        (sameBlob_trans (tryStep_sameBlob ?_ _)
          (sameBlob_trans (tryStep_sameBlob ?_ _)
            (tryStep_sameBlob ?_ _)))))
  all_goals exact fun st => rfl

/-- C10: calling `stopRecording` while `IDLE` or `STOPPING` is a complete
no-op — the whole hook state, including the recorded frame log of the
visualization callback, is returned unchanged — and whenever the accumulated
chunk list is empty, the stop flow leaves the artifact cell exactly as it
was (no artifact is produced). -/
theorem stopRecording_frame (f : StopFails) (s : HookState) :
    ((s.appState = .IDLE ∨ s.appState = .STOPPING) → stopRecording f s = s) ∧
    (s.recordedChunks = [] → (stopRecording f s).audioBlob = s.audioBlob) := by
  constructor
  · intro h
    unfold stopRecording
    rw [if_pos h]
  · intro h
    unfold stopRecording
    split_ifs with hg
    · rfl
    · have hfin : ∀ x : HookState, (stopFinally x).audioBlob = x.audioBlob := by
        intro x
        unfold stopFinally
        split_ifs <;> rfl
      have hcat : ∀ p : HookState × Bool, (stopCatch p).audioBlob = p.1.audioBlob := by
        intro p
        unfold stopCatch
        split_ifs <;> rfl
      rw [hfin, hcat]
      exact stopTry_sameBlob_of_no_chunks f (stopEnter s) h
/-- C10 witness: stopping from `IDLE` returns the state unchanged, and a stop
that does run (from `RECORDING`) with zero accumulated chunks leaves the
artifact cell unchanged. -/
theorem stopRecording_frame_witness :
    (stIdle.appState = .IDLE ∨ stIdle.appState = .STOPPING) ∧
    stopRecording fNone stIdle = stIdle ∧
    (stRecording.recordedChunks = [] ∧
      (stopRecording fSession stRecording).audioBlob = stRecording.audioBlob) :=
  ⟨Or.inl rfl, (stopRecording_frame fNone stIdle).1 (Or.inl rfl),
   rfl, (stopRecording_frame fSession stRecording).2 rfl⟩

/-! ## C2: start-type operations are IDLE-guarded -/

/-- C2: from any non-`IDLE` state both start-type operations return the state
untouched (in particular no session is created, since the whole state — the
session counter included — is unchanged); from `IDLE`, `startRecording`
enters `GETTING_PERMISSION`, and while that first call is pending both a
second `startRecording` and a `transcribeFile` are exact no-ops, so when the
first call finishes the session counter has grown by exactly one (and only
when permission succeeded). -/
theorem startType_guard (s : HookState) :
    (s.appState ≠ .IDLE →
      startRecordingBegin s = s ∧ transcribeFileBegin s = s) ∧
    (s.appState = .IDLE →
      (startRecordingBegin s).appState = .GETTING_PERMISSION ∧
      startRecordingBegin (startRecordingBegin s) = startRecordingBegin s ∧
      transcribeFileBegin (startRecordingBegin s) = startRecordingBegin s ∧
      ∀ ok : Bool, (startRecordingRest ok (startRecordingBegin s)).sessionsCreated =
        s.sessionsCreated + (if ok then 1 else 0)) := by
  constructor
  · intro h
    unfold startRecordingBegin transcribeFileBegin
    rw [if_pos h, if_pos h]
    exact ⟨rfl, rfl⟩
  · intro h
    have hb : startRecordingBegin s =
        { s with error := none, transcript := [], liveTranscript := [],
                 recordingTime := 0, audioBlob := none, recordedChunks := [],
                 appState := .GETTING_PERMISSION } := by
      unfold startRecordingBegin
      rw [if_neg (by simp [h])]
    refine ⟨by rw [hb], ?_, ?_, ?_⟩
    · rw [hb]
      unfold startRecordingBegin
      rw [if_pos (by simp)]
    · rw [hb]
      unfold transcribeFileBegin
      rw [if_pos (by simp)]
    · intro ok
      rw [hb]
      cases ok
      · simp [startRecordingRest]
      · simp [startRecordingRest]

/-- C2 witness: the guard theorem applied to a busy recording state (both
start-type calls are no-ops there) and to the idle state (the double-call
scenario creates exactly one session). -/
theorem startType_guard_witness :
    (stRecording.appState ≠ .IDLE ∧
      startRecordingBegin stRecording = stRecording ∧
      transcribeFileBegin stRecording = stRecording) ∧
    (stIdle.appState = .IDLE ∧
      ((startRecordingBegin stIdle).appState = .GETTING_PERMISSION ∧
        startRecordingBegin (startRecordingBegin stIdle) = startRecordingBegin stIdle ∧
        transcribeFileBegin (startRecordingBegin stIdle) = startRecordingBegin stIdle ∧
        ∀ ok : Bool, (startRecordingRest ok (startRecordingBegin stIdle)).sessionsCreated =
          stIdle.sessionsCreated + (if ok then 1 else 0))) := by
  have h1 := (startType_guard stRecording).1 (by decide)
  have h2 := (startType_guard stIdle).2 rfl
  exact ⟨⟨by decide, h1.1, h1.2⟩, rfl, h2⟩

/-! ## C8: file media-type resolution -/

theorem validMime_iff (m : List Char) :
    validMime m = true ↔ ("audio/".toList <+: m ∨ m ∈ videoWhitelist) := by
  unfold validMime
  rw [Bool.or_eq_true, Bool.and_eq_true, decide_eq_true_iff, decide_eq_true_iff]
  constructor
  · rintro (⟨_, hp⟩ | hm)
    · exact Or.inl hp
    · exact Or.inr hm
  · rintro (hp | hm)
    · left
      refine ⟨?_, hp⟩
      have hne : m ≠ [] := by
        intro he
        subst he
        have hlen := hp.length_le
        simp at hlen
      cases m with
      | nil => exact absurd rfl hne
      | cons a l => rfl
    · exact Or.inr hm

/-- C8: the media type is resolved extension-first (m4a/mp4 map to audio/mp4,
mp3/mpga to audio/mpeg, ogg/opus/oga to audio/ogg, independently of the
browser-reported type), an unmapped extension falls back to the reported type
with audio/x-m4a corrected to audio/mp4, and the file is rejected with the
unsupported-file-type error — naming the detected type, or "unknown" when it
is empty — exactly when the resolved type neither starts with "audio/" nor
is a whitelisted video container.  In particular voice.m4a reported as
audio/x-m4a resolves to audio/mp4, and clip.xyz with an empty reported type
is rejected. -/
theorem fileType_resolution :
    checkFileType "voice.m4a".toList "audio/x-m4a".toList =
      .ok "audio/mp4".toList ∧
    checkFileType "clip.xyz".toList [] =
      .error ("Unsupported file type: unknown. Please upload a supported audio file (e.g., MP3, WAV, M4A).".toList) ∧
    (∀ t : List Char, resolveMime "voice.m4a".toList t = "audio/mp4".toList) ∧
    (∀ t : List Char, resolveMime "song.mp3".toList t = "audio/mpeg".toList) ∧
    (∀ t : List Char, resolveMime "a.mpga".toList t = "audio/mpeg".toList) ∧
    (∀ t : List Char, resolveMime "a.ogg".toList t = "audio/ogg".toList) ∧
    (∀ t : List Char, resolveMime "a.opus".toList t = "audio/ogg".toList) ∧
    (∀ t : List Char, resolveMime "a.oga".toList t = "audio/ogg".toList) ∧
    (∀ t : List Char, resolveMime "a.mp4".toList t = "audio/mp4".toList) ∧
    (∀ t : List Char, resolveMime "clip.xyz".toList t =
      if t = "audio/x-m4a".toList then "audio/mp4".toList else t) ∧
    (∀ name t : List Char,
      (∃ e, checkFileType name t = .error e) ↔
        ¬ ("audio/".toList <+: resolveMime name t ∨
            resolveMime name t ∈ videoWhitelist)) := by
  refine ⟨rfl, rfl, fun t => rfl, fun t => rfl, fun t => rfl,
    fun t => rfl, fun t => rfl, fun t => rfl, fun t => rfl, fun t => rfl, ?_⟩
  intro name t
  unfold checkFileType
  by_cases hv : validMime (resolveMime name t) = true
  · rw [if_pos hv]
    constructor
    · rintro ⟨e, he⟩
      exact absurd he (by simp)
    · intro hcon
      exact absurd ((validMime_iff _).mp hv) hcon
  · rw [if_neg hv]
    constructor
    · intro _
      intro hcon
      exact hv ((validMime_iff _).mpr hcon)
    · intro _
      exact ⟨_, rfl⟩
